import Mathlib

/-!
Verification development for the Agent2Agent (A2A) dynamic-discovery system.

The definitions below are shallow embeddings of the JavaScript sources:
agent-a-server.js (Agent A, the text-processor leaf agent),
agent-e-server.js (Agent E, the intelligent orchestrator with discovery,
delegation and local fallbacks), advanced-orchestrator.js (the process
supervisor) and discovery-client.js.  Network I/O is modelled by explicit
oracles (probe outcomes, delegation outcomes, poll observation streams);
JavaScript Maps are modelled by insertion-ordered association lists with
JS-Map `set` semantics (update in place, append when the key is new);
timestamps are Nat.
-/

namespace A2A

/-- Opaque remote JSON result values (the payloads returned by delegated
capability handlers); their internal structure is irrelevant to every property
proved here. -/
abbrev RVal := String

/-- Task lifecycle states as assigned by the agent servers: the literal strings
written to `task.status` are exactly these three. -/
inductive TaskStatus where
  | processing
  | completed
  | failed
deriving DecidableEq, Repr

/-- A task record as stored in an agent's in-memory `tasks` map.  Agent E
initialises `result` and `error` to `null`, Agent A leaves them absent; both
are `none` here.  Timestamps (`created_at`, `completed_at`) are omitted: no
claim depends on them. -/
structure Task where
  id : String
  method : String
  status : TaskStatus
  result : Option RVal
  error : Option String
deriving DecidableEq, Repr

/-- A freshly accepted task: status `processing`, no result, no error
(agent-a-server.js lines 113-120, agent-e-server.js lines 134-144). -/
def newTask (taskId method : String) : Task :=
  { id := taskId, method := method, status := TaskStatus.processing,
    result := none, error := none }

/-- The single terminal mutation performed by `processTask` in both agent
servers: on handler success set `completed` and `result`; on a thrown error
set `failed` and the error message.  The source performs the status/result
(resp. status/error) assignments back-to-back with no intervening `await`,
so on the single-threaded event loop the mutation is atomic for any reader;
it is therefore modelled as one step. -/
def finishTask (out : Except String RVal) (t : Task) : Task :=
  match out with
  | Except.ok r => { t with status := TaskStatus.completed, result := some r }
  | Except.error e => { t with status := TaskStatus.failed, error := some e }

/-! ## Insertion-ordered string-keyed maps (JS `Map`) -/

/-- JS `Map.prototype.set`: replace in place when the key exists, append
otherwise. -/
def listMapSet {α : Type} (s : List (String × α)) (k : String) (v : α) :
    List (String × α) :=
  if s.any (fun p => p.1 == k) then
    s.map (fun p => if p.1 == k then (k, v) else p)
  else
    s ++ [(k, v)]

/-- JS `Map.prototype.get`. -/
def listMapGet {α : Type} (s : List (String × α)) (k : String) : Option α :=
  (s.find? (fun p => p.1 == k)).map (fun p => p.2)

theorem find?_map_set {α : Type} (k : String) (v : α) :
    ∀ s : List (String × α), s.any (fun p => p.1 == k) = true →
      (s.map (fun p => if p.1 == k then (k, v) else p)).find?
          (fun p => p.1 == k) = some (k, v) := by
  intro s
  induction s with
  | nil => intro h; simp at h
  | cons p t ih =>
    intro h
    by_cases hk : (p.1 == k) = true
    · have hmap : ((p :: t).map (fun q => if q.1 == k then (k, v) else q)) =
          (k, v) :: t.map (fun q => if q.1 == k then (k, v) else q) := by
        rw [List.map_cons]
        congr 1
        exact if_pos hk
      rw [hmap, List.find?_cons_of_pos]
      simp
    · have hmap : ((p :: t).map (fun q => if q.1 == k then (k, v) else q)) =
          p :: t.map (fun q => if q.1 == k then (k, v) else q) := by
        rw [List.map_cons]
        congr 1
        exact if_neg hk
      rw [hmap, List.find?_cons_of_neg _ (by simp [hk])]
      apply ih
      simp only [List.any_cons, Bool.or_eq_true] at h
      rcases h with h | h
      · exact absurd h hk
      · exact h

theorem find?_append_right {α : Type} (pr : String × α → Bool) :
    ∀ s t : List (String × α), s.any pr = false →
      (s ++ t).find? pr = t.find? pr := by
  intro s t
  induction s with
  | nil => intro _; rfl
  | cons p s ih =>
    intro h
    simp only [List.any_cons, Bool.or_eq_false_iff] at h
    rw [List.cons_append, List.find?_cons_of_neg _ (by simp [h.1])]
    exact ih h.2

/-- Looking up a key just written with JS-Map `set` yields the written value. -/
theorem listMapGet_set {α : Type} (s : List (String × α)) (k : String) (v : α) :
    listMapGet (listMapSet s k v) k = some v := by
  unfold listMapSet listMapGet
  by_cases h : s.any (fun p => p.1 == k) = true
  · simp only [h, if_true]
    rw [find?_map_set k v s h]
    rfl
  · rw [if_neg h]
    rw [find?_append_right _ s _ (Bool.eq_false_iff.mpr h)]
    rw [List.find?_cons_of_pos _ (by simp)]
    rfl

/-! ## JSON-RPC envelope and the `/rpc` handlers -/

/-- The JSON-RPC 2.0 request envelope `{ jsonrpc, method, params, id }`.
`params` is opaque and omitted; a missing/empty `method` is the empty string
(JS falsiness of `undefined` and `""` coincide for the only check made). -/
structure RpcRequest where
  jsonrpc : String
  method : String
  id : String
deriving DecidableEq, Repr

/-- The HTTP response produced by a `/rpc` handler: either the acceptance
envelope `{ result: { task_id, status, message } }` or a JSON-RPC error
object `{ error: { code, message } }`, each with its HTTP status code. -/
inductive RpcResponse where
  | accepted (httpStatus : Nat) (task_id : String) (ackStatus : String)
      (message : String) (id : String)
  | rpcError (httpStatus : Nat) (code : Int) (message : String) (id : String)
deriving DecidableEq, Repr

/-- An agent's in-memory task store (`this.tasks`). -/
abbrev TaskStore := List (String × Task)

/-- Methods accepted by Agent A's `/rpc` endpoint
(agent-a-server.js line 100). -/
def supportedMethodsA : List String :=
  ["text_analysis", "text_transform", "text_validation"]

/-- Agent A's `/rpc` handler (agent-a-server.js lines 86-143): validate the
envelope version, validate the method against `supportedMethods`, then store
a fresh `processing` task and answer with the acceptance envelope.  `fresh`
is the uuid generated for the task. -/
def rpcHandlerA (req : RpcRequest) (store : TaskStore) (fresh : String) :
    RpcResponse × TaskStore :=
  if req.jsonrpc ≠ "2.0" then
    (RpcResponse.rpcError 400 (-32600) ("Invalid Request") req.id, store)
  else if ¬ (supportedMethodsA.contains req.method) then
    (RpcResponse.rpcError 400 (-32601) ("Method not found: " ++ req.method)
      req.id, store)
  else
    (RpcResponse.accepted 200 fresh ("accepted")
      ("Task " ++ req.method ++ " accepted for processing") req.id,
     listMapSet store fresh (newTask fresh req.method))

/-- The four methods Agent E's `processTask` dispatches on
(agent-e-server.js lines 186-200); they are also Agent E's advertised
capabilities.  The `/rpc` handler itself never consults this list. -/
def agentEMethods : List String :=
  ["intelligent_text_analysis", "smart_text_processing",
   "orchestrator_status", "force_discovery"]

/-- Agent E's `/rpc` handler (agent-e-server.js lines 111-167): validate the
envelope version and that a method is present, then unconditionally store a
fresh `processing` task and answer with the acceptance envelope.  Note that
no validation against the agent's capabilities takes place. -/
def rpcHandlerE (req : RpcRequest) (store : TaskStore) (fresh : String) :
    RpcResponse × TaskStore :=
  if req.jsonrpc ≠ "2.0" then
    (RpcResponse.rpcError 400 (-32600) ("Invalid Request") req.id, store)
  else if req.method = "" then
    (RpcResponse.rpcError 400 (-32600) ("Method required") req.id, store)
  else
    (RpcResponse.accepted 200 fresh ("accepted")
      ("Task processing started") req.id,
     listMapSet store fresh (newTask fresh req.method))

/-- Agent E's method dispatch inside `processTask`: a method outside the
known four falls to the `default` arm, which throws, so the task is recorded
as failed with an unknown-method error (agent-e-server.js lines 199-212).
`handlers` abstracts the four capability implementations. -/
def dispatchE (handlers : String → Except String RVal) (method : String) :
    Except String RVal :=
  if agentEMethods.contains method then handlers method
  else Except.error ("Unknown method: " ++ method)

/-- Agent E's `processTask`, acting on an accepted task record. -/
def processTaskE (handlers : String → Except String RVal) (t : Task) : Task :=
  finishTask (dispatchE handlers t.method) t

/-! ## Task lifecycle state machine -/

/-- The only write to a stored task after creation, in either agent server:
`processTask` runs exactly once per task, scheduled at acceptance while the
task is still `processing`, and performs the single terminal mutation
`finishTask`.  The `/task/:taskId` endpoint only reads. -/
inductive TaskStep : Task → Task → Prop where
  | finish (t : Task) (out : Except String RVal) :
      t.status = TaskStatus.processing → TaskStep t (finishTask out t)

/-- Task records reachable in an agent's store: created by the `/rpc` handler
via `newTask`, then stepped at most by `TaskStep`. -/
inductive ReachableTask : Task → Prop where
  | created (taskId method : String) : ReachableTask (newTask taskId method)
  | stepped (t u : Task) : ReachableTask t → TaskStep t u → ReachableTask u

/-! ## Agent E: local fallbacks, routing and delegation metrics -/

/-- Split a character list at every character satisfying `p` (empty chunks
kept, as with splitting at each single separator character). -/
def splitChars (p : Char → Bool) : List Char → List (List Char)
  | [] => [[]]
  | c :: cs =>
    if p c then [] :: splitChars p cs
    else
      match splitChars p cs with
      | [] => [[c]]
      | w :: ws => (c :: w) :: ws

/-- JS words: `text.split(/\s+/).filter(w => w.length > 0)`.  Splitting at
each whitespace character and dropping empty chunks yields the same list as
splitting at whitespace runs. -/
def jsWords (text : String) : List String :=
  ((splitChars (fun c => c.isWhitespace) text.toList).map
    (fun w => String.mk w)).filter (fun w => w.length > 0)

/-- JS sentences: `text.split(/[.!?]+/).filter(s => s.trim().length > 0)`.
A chunk has non-empty trim exactly when it contains a non-whitespace
character. -/
def jsSentences (text : String) : List String :=
  ((splitChars (fun c => c == '.' || c == '!' || c == '?') text.toList).filter
    (fun s => s.any (fun c => ¬ c.isWhitespace))).map (fun s => String.mk s)

/-- JS `String.prototype.toLowerCase` (over the characters the fallback word
lists can match, plain ASCII lowering). -/
def lowerStr (s : String) : String :=
  String.mk (s.toList.map Char.toLower)

/-- The statistics computed by Agent E's local `analyzeTextBasic`.  The two
ratio fields are kept as exact numerator/denominator data instead of JS
floats: `avg_word_length = sum_word_length / word_count` and
`uppercase_ratio = uppercase_count / char_count`. -/
structure BasicStats where
  char_count : Nat
  word_count : Nat
  sentence_count : Nat
  sum_word_length : Nat
  uppercase_count : Nat
  processed_by : String
deriving DecidableEq, Repr

/-- Agent E's `analyzeTextBasic` (agent-e-server.js lines 520-530). -/
def analyzeTextBasic (text : String) : BasicStats :=
  let ws := jsWords text
  { char_count := text.length,
    word_count := ws.length,
    sentence_count := (jsSentences text).length,
    sum_word_length := (ws.map (fun w => w.length)).sum,
    uppercase_count := (text.toList.filter (fun c => c.isUpper)).length,
    processed_by := "Agent E (local analysis)" }

/-- Keyword lists of the local sentiment fallback
(agent-e-server.js lines 534-535). -/
def positiveWords : List String :=
  ["good", "great", "excellent", "amazing", "wonderful", "fantastic",
   "love", "happy", "joy"]

def negativeWords : List String :=
  ["bad", "terrible", "awful", "hate", "sad", "angry", "disappointed",
   "horrible", "worst"]

/-- Result of `sentimentFallback`.  The JS floats `score` and `confidence`
are multiples of 0.1 by construction and are represented exactly in tenths. -/
structure SentimentResult where
  sentiment : String
  score_tenths : Int
  confidence_tenths : Nat
  positive_words : Nat
  negative_words : Nat
  total_words : Nat
  processed_by : String
deriving DecidableEq, Repr

/-- Agent E's local `sentimentFallback` (agent-e-server.js lines 532-563):
count positive and negative keywords among the lowercased words, label
`positive`/`negative`/`neutral`, score clamped to [-0.8, 0.8] in 0.1 steps. -/
def sentimentFallback (text : String) : SentimentResult :=
  let ws := jsWords (lowerStr text)
  let pos := (ws.filter (fun w => positiveWords.contains w)).length
  let neg := (ws.filter (fun w => negativeWords.contains w)).length
  let sentiment :=
    if pos > neg then "positive" else if neg > pos then "negative"
    else "neutral"
  let score : Int :=
    if pos > neg then min 8 (3 + ((pos : Int) - (neg : Int)))
    else if neg > pos then max (-8) (-3 - ((neg : Int) - (pos : Int)))
    else 0
  { sentiment := sentiment,
    score_tenths := score,
    confidence_tenths := if score ≠ 0 then 6 else 4,
    positive_words := pos,
    negative_words := neg,
    total_words := ws.length,
    processed_by := "Agent E (fallback sentiment)" }

/-- Result of the local `languageFallback`.  Its regex-based per-language
scoring is not modelled: no verified property depends on the detected
language, only on which handler produced the value. -/
structure LanguageResult where
  processed_by : String
  source_text : String
deriving DecidableEq, Repr

/-- Agent E's local `languageFallback` (agent-e-server.js lines 565-594),
abstracted to its provenance tag and input (see `LanguageResult`). -/
def languageFallback (text : String) : LanguageResult :=
  { processed_by := "Agent E (fallback language detection)",
    source_text := text }

/-- A discovered-agent descriptor as stored in Agent E's `discoveredAgents`
map (agent-e-server.js lines 438-446).  The stored `url` is always
`http://localhost:` followed by the probed port, so it is represented by the
port. -/
structure DAgent where
  id : String
  name : String
  type : String
  port : Nat
  capabilities : List String
  last_seen : Nat
deriving DecidableEq, Repr

/-- Agent E's discovered-agents registry (`this.discoveredAgents`), a JS Map
keyed by agent id. -/
abbrev Registry := List (String × DAgent)

def sentimentAgentType : String := "sentiment-analyzer"

def languageAgentType : String := "language-detector"

/-- Agent E's `findAgentByType` (agent-e-server.js line 468-470): first
registry value (in insertion order) with the requested type. -/
def findAgentByType (reg : Registry) (ty : String) : Option DAgent :=
  (reg.map (fun p => p.2)).find? (fun a => a.type == ty)

/-- Agent E's delegation/fallback metrics (`this.delegationCount`,
`this.fallbackCount`). -/
structure Counters where
  delegationCount : Nat
  fallbackCount : Nat
deriving DecidableEq, Repr

/-- The JSON value Agent E writes into `result.fallback_used`: the source
assigns the string name of a fallback, or the two-element array
`[previous, next]` when a second fallback fires in the same request.  The
`jbool` constructor exists only so that the spec's claimed value
`fallback_used: true` is expressible; the code never produces it. -/
inductive FallbackTag where
  | jbool (b : Bool)
  | jstr (s : String)
  | jpair (fst snd : FallbackTag)
deriving DecidableEq, Repr

/-- The sentiment part of an `intelligent_text_analysis` result: either the
payload returned by a delegated remote agent or the local fallback value. -/
inductive SentimentOutcome where
  | delegated (r : Option RVal)
  | localFallback (s : SentimentResult)
deriving DecidableEq, Repr

/-- The language part, analogous to `SentimentOutcome`. -/
inductive LanguageOutcome where
  | delegated (r : Option RVal)
  | localFallback (l : LanguageResult)
deriving DecidableEq, Repr

/-- The result object built by `intelligentTextAnalysis`. -/
structure ITAResult where
  text_analysis : BasicStats
  delegation_used : Bool
  agents_called : List String
  sentiment_analysis : Option SentimentOutcome
  language_detection : Option LanguageOutcome
  fallback_used : Option FallbackTag
deriving DecidableEq, Repr

/-- Agent E's `intelligentTextAnalysis` (agent-e-server.js lines 214-281).
`reg` is the discovered-agents registry after the on-demand discovery pass
that the source runs when the registry is empty; `sentDeleg`/`langDeleg` are
the outcomes of `delegateToAgent` when a delegation is attempted (a thrown
delegation error is `Except.error`).  Returns the result object together
with the updated delegation/fallback counters. -/
def intelligentTextAnalysis (reg : Registry)
    (sentDeleg langDeleg : Except String (Option RVal))
    (text : String) (includeSentiment includeLanguage : Bool)
    (c : Counters) : Except String (ITAResult × Counters) :=
  if text = "" then Except.error ("Text parameter is required")
  else
    let r0 : ITAResult :=
      { text_analysis := analyzeTextBasic text, delegation_used := false,
        agents_called := [], sentiment_analysis := none,
        language_detection := none, fallback_used := none }
    let step1 : ITAResult × Counters :=
      if includeSentiment then
        match findAgentByType reg sentimentAgentType with
        | some _ =>
          match sentDeleg with
          | Except.ok v =>
            ({ r0 with
                sentiment_analysis := some (SentimentOutcome.delegated v),
                delegation_used := true,
                agents_called := r0.agents_called ++ ["Agent C (sentiment)"] },
             { c with delegationCount := c.delegationCount + 1 })
          | Except.error _ =>
            ({ r0 with
                sentiment_analysis :=
                  some (SentimentOutcome.localFallback (sentimentFallback text)),
                fallback_used := some (FallbackTag.jstr ("sentiment")) },
             { c with fallbackCount := c.fallbackCount + 1 })
        | none =>
          ({ r0 with
              sentiment_analysis :=
                some (SentimentOutcome.localFallback (sentimentFallback text)),
              fallback_used := some (FallbackTag.jstr ("sentiment")) },
           { c with fallbackCount := c.fallbackCount + 1 })
      else (r0, c)
    let r1 := step1.1
    let c1 := step1.2
    if includeLanguage then
      match findAgentByType reg languageAgentType with
      | some _ =>
        match langDeleg with
        | Except.ok v =>
          Except.ok
            ({ r1 with
                language_detection := some (LanguageOutcome.delegated v),
                delegation_used := true,
                agents_called := r1.agents_called ++ ["Agent D (language)"] },
             { c1 with delegationCount := c1.delegationCount + 1 })
        | Except.error _ =>
          Except.ok
            ({ r1 with
                language_detection :=
                  some (LanguageOutcome.localFallback (languageFallback text)),
                fallback_used :=
                  match r1.fallback_used with
                  | none => some (FallbackTag.jstr ("language"))
                  | some prev =>
                      some (FallbackTag.jpair prev (FallbackTag.jstr ("language"))) },
             { c1 with fallbackCount := c1.fallbackCount + 1 })
      | none =>
        Except.ok
          ({ r1 with
              language_detection :=
                some (LanguageOutcome.localFallback (languageFallback text)),
              fallback_used :=
                match r1.fallback_used with
                | none => some (FallbackTag.jstr ("language"))
                | some prev =>
                    some (FallbackTag.jpair prev (FallbackTag.jstr ("language"))) },
           { c1 with fallbackCount := c1.fallbackCount + 1 })
    else Except.ok (r1, c1)

/-- The running delegation summary built by `smartTextProcessing`
(agent-e-server.js lines 290-298). -/
structure DelegationSummary where
  agents_used : List String
  fallbacks_used : List String
  total_delegations : Nat
  total_fallbacks : Nat
deriving DecidableEq, Repr

/-- One iteration of the `for (const operation of operations)` loop of
`smartTextProcessing` (agent-e-server.js lines 307-363), restricted to its
effect on the delegation summary and the global counters.  `deleg` gives the
outcome of `delegateToAgent` for the method delegated by the operation. -/
def smartOpStep (reg : Registry) (deleg : String → Except String (Option RVal))
    (sc : DelegationSummary × Counters) (op : String) :
    DelegationSummary × Counters :=
  let s := sc.1
  let c := sc.2
  if op = "analyze" then (s, c)
  else if op = "sentiment" then
    match findAgentByType reg sentimentAgentType with
    | some _ =>
      match deleg ("sentiment_analysis") with
      | Except.ok _ =>
        ({ s with agents_used := s.agents_used ++ ["Agent C (sentiment)"],
                  total_delegations := s.total_delegations + 1 },
         { c with delegationCount := c.delegationCount + 1 })
      | Except.error _ =>
        ({ s with fallbacks_used := s.fallbacks_used ++ ["sentiment"],
                  total_fallbacks := s.total_fallbacks + 1 },
         { c with fallbackCount := c.fallbackCount + 1 })
    | none =>
      ({ s with fallbacks_used := s.fallbacks_used ++ ["sentiment"],
                total_fallbacks := s.total_fallbacks + 1 },
       { c with fallbackCount := c.fallbackCount + 1 })
  else if op = "language" then
    match findAgentByType reg languageAgentType with
    | some _ =>
      match deleg ("language_detection") with
      | Except.ok _ =>
        ({ s with agents_used := s.agents_used ++ ["Agent D (language)"],
                  total_delegations := s.total_delegations + 1 },
         { c with delegationCount := c.delegationCount + 1 })
      | Except.error _ =>
        ({ s with fallbacks_used := s.fallbacks_used ++ ["language"],
                  total_fallbacks := s.total_fallbacks + 1 },
         { c with fallbackCount := c.fallbackCount + 1 })
    | none =>
      ({ s with fallbacks_used := s.fallbacks_used ++ ["language"],
                total_fallbacks := s.total_fallbacks + 1 },
       { c with fallbackCount := c.fallbackCount + 1 })
  else (s, c)

/-- The delegation-summary/counter effect of a whole `smartTextProcessing`
call over its `operations` list. -/
def smartTextProcessingCounters (reg : Registry)
    (deleg : String → Except String (Option RVal)) (ops : List String)
    (c : Counters) : DelegationSummary × Counters :=
  ops.foldl (smartOpStep reg deleg)
    ({ agents_used := [], fallbacks_used := [], total_delegations := 0,
       total_fallbacks := 0 }, c)

/-! ## Agent E: delegation and completion polling -/

/-- Polling interval of `waitForTaskCompletion` (agent-e-server.js line 509),
in milliseconds. -/
def pollIntervalMs : Nat := 500

/-- Overall wall-clock ceiling of `waitForTaskCompletion`
(`maxWaitTime`, agent-e-server.js line 494), in milliseconds. -/
def maxWaitTimeMs : Nat := 10000

/-- Per-attempt network timeout of each task-status poll
(agent-e-server.js line 499), in milliseconds. -/
def pollAttemptTimeoutMs : Nat := 2000

/-- Network timeout of the delegation RPC POST
(agent-e-server.js line 480), in milliseconds. -/
def delegatePostTimeoutMs : Nat := 5000

/-- One observation of the remote `/task/{id}` endpoint: the task record it
served, or a network error (timeout, connection failure). -/
inductive PollObs where
  | observed (status : TaskStatus) (result : Option RVal) (error : Option String)
  | netError
deriving DecidableEq, Repr

/-- The polling loop of `waitForTaskCompletion` (agent-e-server.js lines
494-517).  `obs i` is what the i-th poll observes and `durs i` how many
milliseconds it took (bounded by `pollAttemptTimeoutMs` in any real
execution).  The loop runs while the elapsed wall-clock time is below
`maxWaitTimeMs`; a non-terminal status sleeps `pollIntervalMs` and retries; a
network error breaks out of the loop; leaving the loop throws the timeout
error. -/
def waitLoop (obs : Nat → PollObs) (durs : Nat → Nat) (taskId : String)
    (i elapsed : Nat) : Except String (Option RVal) :=
  if h : elapsed < maxWaitTimeMs then
    match obs i with
    | PollObs.netError => Except.error ("Task " ++ taskId ++ " timeout")
    | PollObs.observed st r e =>
      if st = TaskStatus.completed then Except.ok r
      else if st = TaskStatus.failed then
        Except.error ("Task failed: " ++ e.getD ("undefined"))
      else waitLoop obs durs taskId (i + 1) (elapsed + durs i + pollIntervalMs)
  else Except.error ("Task " ++ taskId ++ " timeout")
termination_by maxWaitTimeMs - elapsed
decreasing_by
  have hp : pollIntervalMs = 500 := rfl
  omega

/-- Agent E's `waitForTaskCompletion` entry point. -/
def waitForTaskCompletion (obs : Nat → PollObs) (durs : Nat → Nat)
    (taskId : String) : Except String (Option RVal) :=
  waitLoop obs durs taskId 0 0

/-- The JSON-RPC `result` member of a remote agent's response as seen by a
delegator: either the task-acceptance envelope `{ task_id, status, message }`
or a plain value without a `task_id`. -/
inductive RpcResultVal where
  | acceptance (task_id : String) (ackStatus : String) (message : String)
  | plain (r : Option RVal)
deriving DecidableEq, Repr

/-- A remote agent's reply to the delegation POST. -/
inductive RpcReply where
  | withError (msg : String)
  | withResult (v : RpcResultVal)
deriving DecidableEq, Repr

/-- Agent E's `delegateToAgent` (agent-e-server.js lines 472-492): POST the
JSON-RPC request (5s timeout); a JSON-RPC error throws; a result carrying a
`task_id` is an asynchronous task, so poll the remote task-status endpoint
until terminal; a result without `task_id` is returned as is. -/
def delegateToAgent (reply : RpcReply) (obs : Nat → PollObs)
    (durs : Nat → Nat) : Except String (Option RVal) :=
  match reply with
  | RpcReply.withError m => Except.error ("Agent error: " ++ m)
  | RpcReply.withResult (RpcResultVal.acceptance tid _ _) =>
      waitForTaskCompletion obs durs tid
  | RpcReply.withResult (RpcResultVal.plain r) => Except.ok r

/-! ## Advanced orchestrator: configuration, routing, supervision -/

/-- One entry of the orchestrator's static `agentConfigs`
(advanced-orchestrator.js lines 38-75). -/
structure AgentConfig where
  id : String
  name : String
  port : Nat
  type : String
  script : String
  capabilities : List String
deriving DecidableEq, Repr

def agentConfigs : List AgentConfig :=
  [{ id := "agent-a", name := "Text Processor", port := 4001,
     type := "text-processor", script := "agent-a-server.js",
     capabilities := ["text_analysis", "text_transform", "text_validation"] },
   { id := "agent-b", name := "Math Calculator", port := 4002,
     type := "math-calculator", script := "agent-b-server.js",
     capabilities := ["basic_math", "advanced_math", "statistical_analysis",
                      "equation_solving"] },
   { id := "agent-c", name := "Sentiment Analyzer", port := 4003,
     type := "sentiment-analyzer", script := "agent-c-server.js",
     capabilities := ["sentiment_analysis", "emotion_detection",
                      "polarity_analysis", "batch_sentiment"] },
   { id := "agent-d", name := "Language Detector", port := 4004,
     type := "language-detector", script := "agent-d-server.js",
     capabilities := ["language_detection", "multilingual_analysis",
                      "language_statistics", "batch_language_detection"] }]

/-- Substring occurrence over character lists. -/
def listContains (hay needle : List Char) : Bool :=
  needle.isPrefixOf hay ||
    (match hay with
     | [] => false
     | _ :: t => listContains t needle)

/-- JS `String.prototype.includes` (substring test). -/
def strContains (s needle : String) : Bool :=
  listContains s.toList needle.toList

/-- JS `String.prototype.startsWith`. -/
def strStartsWith (s pre : String) : Bool :=
  pre.toList.isPrefixOf s.toList

/-- The method-to-agent-type routing of `routeAndExecuteTask`
(advanced-orchestrator.js lines 362-374). -/
def routeMethodToAgentType (method : String) : Option String :=
  if strStartsWith method ("text_") then some ("text-processor")
  else if strStartsWith method ("math_") || strContains method ("math") then
    some ("math-calculator")
  else if strStartsWith method ("sentiment_") || strContains method ("sentiment")
      || strContains method ("emotion") then
    some ("sentiment-analyzer")
  else if strStartsWith method ("language_") || strContains method ("language") then
    some ("language-detector")
  else none

/-- Path the orchestrator POSTs its routed task to
(advanced-orchestrator.js line 382). -/
def orchestratorPostPath : String := "/json-rpc"

/-- Path at which every agent server actually mounts its JSON-RPC endpoint
(agent-a-server.js line 86, agent-e-server.js line 111). -/
def agentRpcPath : String := "/rpc"

/-- The value returned by `routeAndExecuteTask`
(advanced-orchestrator.js lines 389-395): the routed agent's name, the
method, the response's `result` member taken verbatim, and the routed type. -/
structure OrchExecResult where
  agent : String
  method : String
  result : RpcResultVal
  routed_to : String
deriving DecidableEq, Repr

/-- The orchestrator's `routeAndExecuteTask` (advanced-orchestrator.js lines
360-396): map the method to an agent type, find the first config of that
type, perform a single POST (to `orchestratorPostPath` on the agent's port,
with no timeout option), and return `response.data.result` without extracting
a task id or polling any task-status endpoint.  `remoteResult` is the
`result` member of the response to that single POST. -/
def routeAndExecuteTask (method : String) (remoteResult : RpcResultVal) :
    Except String OrchExecResult :=
  match routeMethodToAgentType method with
  | none => Except.error ("Unable to route method: " ++ method)
  | some ty =>
    match agentConfigs.find? (fun c => c.type == ty) with
    | none => Except.error ("No agent found for type: " ++ ty)
    | some cfg =>
      Except.ok { agent := cfg.name, method := method,
                  result := remoteResult, routed_to := ty }

/-- Supervised-agent lifecycle states used by the orchestrator. -/
inductive AgentStatus where
  | starting
  | running
  | stopping
  | stopped
deriving DecidableEq, Repr

/-- The per-agent record the supervisor keeps in `this.agents`
(advanced-orchestrator.js lines 236-244), without the OS process handle. -/
structure SupAgentRec where
  status : AgentStatus
  errorCount : Nat
  lastHealthCheck : Option Nat
  responseTime : Option Nat
deriving DecidableEq, Repr

/-- The supervisor's map of tracked agents. -/
abbrev SupState := List (String × SupAgentRec)

/-- Errors surfaced by `startAgent`. -/
inductive StartError where
  | configNotFound (agentId : String)
  | alreadyRunning (agentId : String)
  | referenceErrorProcessTdz
  | startTimeout (port : Nat)
deriving DecidableEq, Repr

/-- Successful `startAgent` payload (`{ agentId, status: 'running', port }`). -/
structure StartOk where
  agentId : String
  status : AgentStatus
  port : Nat
deriving DecidableEq, Repr

/-- An opaque spawned OS process handle. -/
inductive NodeProcess where
  | handle (pid : Nat)
deriving DecidableEq, Repr

/-- Reading the function-scoped binding `process` inside `startAgent`
(advanced-orchestrator.js lines 231-234).  The declaration
`const process = spawn('node', [scriptPath], { ..., env: { ...process.env,
AGENT_PORT: ... } })` shadows the Node global `process` for the whole
function body, and the spread `...process.env` is evaluated while that very
binding is still uninitialised (its temporal dead zone), so the read throws
a ReferenceError. -/
def readProcessBinding (binding : Option NodeProcess) :
    Except StartError NodeProcess :=
  match binding with
  | none => Except.error StartError.referenceErrorProcessTdz
  | some p => Except.ok p

/-- The bounded liveness wait of `waitForAgent` (advanced-orchestrator.js
lines 319-330): retry the `/status` probe every 500ms for up to 10s.
`live k port` tells whether the k-th probe of `port` succeeds. -/
def waitForAgentOk (live : Nat → Nat → Bool) (port : Nat) : Bool :=
  (List.range 20).any (fun k => live k port)

/-- Whether `startAgent`'s already-running check fires
(advanced-orchestrator.js lines 225-228). -/
def isRunning (st : SupState) (agentId : String) : Bool :=
  match listMapGet st agentId with
  | some a => a.status == AgentStatus.running
  | none => false

/-- Record registration and the `running` mark of a successful start. -/
def markRunning (st : SupState) (agentId : String) : SupState :=
  listMapSet st agentId
    { status := AgentStatus.running, errorCount := 0,
      lastHealthCheck := none, responseTime := none }

/-- The orchestrator's `startAgent` (advanced-orchestrator.js lines 219-267):
look up the static config; fail when already running; then evaluate the
spawn call — whose `env` option reads the shadowing `process` binding inside
its own initialiser (see `readProcessBinding`) — and, were that read to
succeed, register the record, wait for liveness and mark `running`. -/
def startAgent (live : Nat → Nat → Bool) (st : SupState) (agentId : String) :
    Except StartError (StartOk × SupState) :=
  match agentConfigs.find? (fun c => c.id == agentId) with
  | none => Except.error (StartError.configNotFound agentId)
  | some config =>
    if isRunning st agentId then
      Except.error (StartError.alreadyRunning agentId)
    else
      match readProcessBinding none with
      | Except.error e => Except.error e
      | Except.ok _ =>
        if waitForAgentOk live config.port then
          Except.ok ({ agentId := agentId, status := AgentStatus.running,
                       port := config.port },
                     markRunning st agentId)
        else Except.error (StartError.startTimeout config.port)

/-- Auto-restart threshold of the health-monitoring loop
(`agent.errorCount > 3`, advanced-orchestrator.js line 415). -/
def errorThreshold : Nat := 3

/-- Outcome of one liveness probe in the health-monitoring loop. -/
inductive Probe where
  | ok (responseTimeMs : Nat)
  | failure
deriving DecidableEq, Repr

/-- One iteration of `startHealthMonitoring` for a single tracked agent
(advanced-orchestrator.js lines 398-430).  A successful probe records the
check time and response time (and leaves `errorCount` untouched); a failed
probe increments `errorCount`; once the count exceeds `errorThreshold` the
supervisor attempts stop-wait-start.  On a successful restart the agent
record is replaced by a fresh `running` record with `errorCount` 0; when the
restart attempt throws (as `startAgent` in fact always does, see
`startAgent`), the stop has already marked the agent `stopped` and the
counter is not reset.  The returned Bool reports whether an auto-restart was
attempted. -/
def healthCheckStep (probe : Probe) (restartSucceeds : Bool) (now : Nat)
    (a : SupAgentRec) : SupAgentRec × Bool :=
  if a.status ≠ AgentStatus.running then (a, false)
  else
    match probe with
    | Probe.ok rt =>
      ({ a with lastHealthCheck := some now, responseTime := some rt }, false)
    | Probe.failure =>
      let a1 := { a with errorCount := a.errorCount + 1 }
      if a1.errorCount > errorThreshold then
        if restartSucceeds then
          ({ status := AgentStatus.running, errorCount := 0,
             lastHealthCheck := none, responseTime := none }, true)
        else
          ({ a1 with status := AgentStatus.stopped }, true)
      else (a1, false)

/-! ## Agent E: discovery passes over the port range -/

/-- The agent card fetched from `/agent-card` (the fields `performDiscovery`
copies into a descriptor). -/
structure AgentCard where
  id : String
  name : String
  type : String
  capabilities : List String
deriving DecidableEq, Repr

/-- What probing one port yields during a discovery pass
(agent-e-server.js lines 426-460): `reachable` when the `/status` probe
answers `status: 'ok'` and the card fetch succeeds; `degraded` when the
probe answers but without `status: 'ok'` (neither branch fires); `down`
when either request throws (timeout, refused), which triggers removal. -/
inductive ProbeOutcome where
  | reachable (card : AgentCard)
  | degraded
  | down
deriving DecidableEq, Repr

/-- The descriptor `performDiscovery` stores for a reachable agent
(agent-e-server.js lines 438-446). -/
def descriptorOf (card : AgentCard) (port now : Nat) : DAgent :=
  { id := card.id, name := card.name, type := card.type, port := port,
    capabilities := card.capabilities, last_seen := now }

/-- Agent E's own port; the discovery loop skips it. -/
def agentEPort : Nat := 4005

/-- The port range scanned by `performDiscovery`
(agent-e-server.js line 421). -/
def discoveryPortRange : List Nat := [4001, 4002, 4003, 4004]

/-- The removal predicate of a failed probe: keep the agents whose url does
not carry the probed port. -/
def keepsPort (port : Nat) : String × DAgent → Bool :=
  fun e => ¬ (e.2.port = port)

/-- One iteration of the discovery loop for a single port: skip self; on a
reachable agent, `Map.set` the descriptor keyed by card id; on a degraded
answer, nothing; on a failure, remove every registered agent whose url
carries this port (`agent.url.includes(':port')`, which for the urls this
map ever stores — `http://localhost:` followed by one of 4001-4005 — holds
exactly when the descriptor's port equals the probed port). -/
def discoverStep (live : Nat → ProbeOutcome) (now : Nat) (r : Registry)
    (port : Nat) : Registry :=
  if port = agentEPort then r
  else
    match live port with
    | ProbeOutcome.reachable card =>
        listMapSet r card.id (descriptorOf card port now)
    | ProbeOutcome.degraded => r
    | ProbeOutcome.down => r.filter (keepsPort port)

/-- Agent E's `performDiscovery` (agent-e-server.js lines 415-466), as a
function of the probe outcomes `live` and the pass timestamp `now`. -/
def performDiscovery (live : Nat → ProbeOutcome) (now : Nat) (r : Registry) :
    Registry :=
  discoveryPortRange.foldl (discoverStep live now) r

/-- A probe map assigns pairwise-distinct agent ids to the reachable ports
of the scanned range (every agent in this system advertises a distinct
constant id). -/
def liveIdsInjective (live : Nat → ProbeOutcome) : Prop :=
  ∀ p q cp cq, p ∈ discoveryPortRange → q ∈ discoveryPortRange →
    live p = ProbeOutcome.reachable cp → live q = ProbeOutcome.reachable cq →
    cp.id = cq.id → p = q

/-- Forgetting the freshness timestamps of a registry snapshot. -/
def eraseSeen (r : Registry) : Registry :=
  r.map (fun p => (p.1, { p.2 with last_seen := 0 }))

/-! ## Claim C1: unknown-method handling at the RPC endpoints -/

/-- A jsonrpc-2.0 request naming no capability of Agent E. -/
def reqUnknownE : RpcRequest :=
  { jsonrpc := "2.0", method := "totally_unknown_method", id := "req-1" }

/-- A valid Agent A request. -/
def reqTextAnalysis : RpcRequest :=
  { jsonrpc := "2.0", method := "text_analysis", id := "i" }

/-- A jsonrpc-2.0 request whose method Agent A does not support. -/
def reqUnknownA : RpcRequest :=
  { jsonrpc := "2.0", method := "nope", id := "i" }

/-- C1 (counterexample): the claim fails on Agent E.  The request
`{ jsonrpc: "2.0", method: "totally_unknown_method" }` names no capability of
Agent E, yet its `/rpc` handler answers HTTP 200 with an acceptance envelope
(not HTTP 400 with -32601) and stores a new task record. -/
theorem c1_counterexample :
    agentEMethods.contains ("totally_unknown_method") = false ∧
    (rpcHandlerE reqUnknownE [] ("task-1")).1 =
      RpcResponse.accepted 200 ("task-1") ("accepted")
        ("Task processing started") ("req-1") ∧
    listMapGet (rpcHandlerE reqUnknownE [] ("task-1")).2 ("task-1") =
      some (newTask ("task-1") ("totally_unknown_method")) :=
  ⟨rfl, rfl, rfl⟩

/-- C1 (amended): Agent A's `/rpc` handler rejects a jsonrpc-2.0 request
whose method is not among its supported methods with HTTP 400 and JSON-RPC
error -32601, leaving the task store unchanged; Agent E's `/rpc` handler
performs no method validation — every jsonrpc-2.0 request with a non-empty
method is accepted with HTTP 200 and a task record is created — and an
unknown method surfaces only later, when `processTask` marks that task
`failed` with an unknown-method error. -/
theorem c1_amended :
    (∀ (req : RpcRequest) (store : TaskStore) (fresh : String),
        req.jsonrpc = "2.0" → supportedMethodsA.contains req.method = false →
        rpcHandlerA req store fresh =
          (RpcResponse.rpcError 400 (-32601)
            ("Method not found: " ++ req.method) req.id, store)) ∧
    (∀ (req : RpcRequest) (store : TaskStore) (fresh : String),
        req.jsonrpc = "2.0" → req.method ≠ "" →
        (rpcHandlerE req store fresh).1 =
          RpcResponse.accepted 200 fresh ("accepted")
            ("Task processing started") req.id ∧
        listMapGet (rpcHandlerE req store fresh).2 fresh =
          some (newTask fresh req.method)) ∧
    (∀ (handlers : String → Except String RVal) (tid m : String),
        agentEMethods.contains m = false →
        (processTaskE handlers (newTask tid m)).status = TaskStatus.failed ∧
        (processTaskE handlers (newTask tid m)).error =
          some ("Unknown method: " ++ m)) := by
  refine ⟨?_, ?_, ?_⟩
  · intro req store fresh h1 h2
    unfold rpcHandlerA
    rw [if_neg (by simp [h1]), if_pos (by simpa using h2)]
  · intro req store fresh h1 h2
    unfold rpcHandlerE
    rw [if_neg (by simp [h1]), if_neg h2]
    exact ⟨rfl, listMapGet_set store fresh _⟩
  · intro handlers tid m hm
    unfold processTaskE dispatchE
    have hmeth : (newTask tid m).method = m := rfl
    rw [hmeth, if_neg (by simpa using hm)]
    exact ⟨rfl, rfl⟩

/-- C1 (witness). -/
theorem c1_witness :
    rpcHandlerA reqUnknownA [] ("t") =
      (RpcResponse.rpcError 400 (-32601)
        ("Method not found: " ++ reqUnknownA.method) reqUnknownA.id, []) ∧
    (processTaskE (fun _ => Except.ok ("r")) (newTask ("t") ("nope"))).status =
      TaskStatus.failed :=
  ⟨c1_amended.1 reqUnknownA [] ("t") rfl rfl,
   (c1_amended.2.2 (fun _ => Except.ok ("r")) ("t") ("nope") rfl).1⟩

/-! ## Claim C3: `startAgent` and the shadowed `process` binding -/

/-- C3 (code_bug): for every configured agent that is not currently running,
`startAgent` evaluates the spawn call whose `env` option spreads
`process.env` — but `const process` shadows the Node global for the whole
function body, so the read happens in the temporal dead zone of the binding
being initialised and throws a ReferenceError.  `startAgent` therefore never
spawns, never marks `running`, and fails even when the liveness probe would
always succeed, contradicting the claim (and §4.6 of the spec). -/
theorem c3_start_agent_always_throws :
    (∀ (live : Nat → Nat → Bool) (st : SupState) (agentId : String)
        (cfg : AgentConfig),
        agentConfigs.find? (fun c => c.id == agentId) = some cfg →
        isRunning st agentId = false →
        startAgent live st agentId =
          Except.error StartError.referenceErrorProcessTdz) ∧
    startAgent (fun _ _ => true) [] ("agent-a") =
      Except.error StartError.referenceErrorProcessTdz := by
  constructor
  · intro live st agentId cfg hfind hrun
    unfold startAgent
    simp only [hfind, hrun, Bool.false_eq_true, if_false]
    rfl
  · rfl

/-- A supervisor record for an agent that is tracked but not running. -/
def stoppedRec : SupAgentRec :=
  { status := AgentStatus.stopped, errorCount := 0,
    lastHealthCheck := none, responseTime := none }

/-- C3 (witness). -/
theorem c3_witness :
    startAgent (fun _ _ => false) [("agent-b", stoppedRec)] ("agent-b") =
      Except.error StartError.referenceErrorProcessTdz :=
  c3_start_agent_always_throws.1 (fun _ _ => false) _ ("agent-b") _ rfl rfl

/-! ## Claim C5: the health-monitor error counter -/

/-- A running supervisor record with a given error count. -/
def runningRec (ec : Nat) : SupAgentRec :=
  { status := AgentStatus.running, errorCount := ec,
    lastHealthCheck := none, responseTime := none }

/-- Unfolding of `healthCheckStep` on a failed probe of a running agent. -/
theorem healthCheckStep_running_failure (rs : Bool) (now ec : Nat)
    (lh rt0 : Option Nat) :
    healthCheckStep Probe.failure rs now
      { status := AgentStatus.running, errorCount := ec,
        lastHealthCheck := lh, responseTime := rt0 } =
      if ec + 1 > errorThreshold then
        (if rs then
          ({ status := AgentStatus.running, errorCount := 0,
             lastHealthCheck := none, responseTime := none }, true)
         else
          ({ status := AgentStatus.stopped, errorCount := ec + 1,
             lastHealthCheck := lh, responseTime := rt0 }, true))
      else
        ({ status := AgentStatus.running, errorCount := ec + 1,
           lastHealthCheck := lh, responseTime := rt0 }, false) := by
  unfold healthCheckStep
  rfl

/-- C5 (counterexample): a successful health check does not reset the error
counter.  A running agent with `errorCount = 2` keeps `errorCount = 2` after
a successful probe, refuting the claim that the counter counts consecutive
failures and is reset to 0 on a successful health check. -/
theorem c5_counterexample :
    (healthCheckStep (Probe.ok 42) false 100 (runningRec 2)).1.errorCount = 2 ∧
    (2 : Nat) ≠ 0 :=
  ⟨rfl, by decide⟩

/-- C5 (amended): in the health-monitoring loop, a failed liveness probe of
a running agent increments its error counter; the counter is cumulative — a
successful health check records the check time and response time but leaves
the counter unchanged — and once the counter exceeds the threshold 3 the
supervisor attempts an automatic stop-and-restart, after which the counter
is 0 exactly when the restart succeeded (when the restart attempt fails the
agent is left `stopped` with the incremented counter). -/
theorem c5_amended (a : SupAgentRec) (now rt : Nat) (rs : Bool)
    (hrun : a.status = AgentStatus.running) :
    ((healthCheckStep (Probe.ok rt) rs now a).1.errorCount = a.errorCount ∧
      (healthCheckStep (Probe.ok rt) rs now a).2 = false) ∧
    (a.errorCount + 1 ≤ errorThreshold →
      (healthCheckStep Probe.failure rs now a).1.errorCount = a.errorCount + 1 ∧
      (healthCheckStep Probe.failure rs now a).2 = false) ∧
    (a.errorCount + 1 > errorThreshold →
      (healthCheckStep Probe.failure rs now a).2 = true ∧
      (rs = true →
        (healthCheckStep Probe.failure rs now a).1.errorCount = 0 ∧
        (healthCheckStep Probe.failure rs now a).1.status =
          AgentStatus.running) ∧
      (rs = false →
        (healthCheckStep Probe.failure rs now a).1.errorCount =
          a.errorCount + 1 ∧
        (healthCheckStep Probe.failure rs now a).1.status =
          AgentStatus.stopped)) := by
  obtain ⟨st0, ec, lh, rt0⟩ := a
  replace hrun : st0 = AgentStatus.running := hrun
  subst hrun
  refine ⟨⟨rfl, rfl⟩, ?_, ?_⟩
  · intro hle
    replace hle : ec + 1 ≤ errorThreshold := hle
    rw [healthCheckStep_running_failure, if_neg (by omega)]
    exact ⟨rfl, rfl⟩
  · intro hgt
    replace hgt : ec + 1 > errorThreshold := hgt
    rw [healthCheckStep_running_failure, if_pos hgt]
    cases rs
    · refine ⟨rfl, ?_, ?_⟩
      · intro hrs; exact absurd hrs (by decide)
      · intro _; exact ⟨rfl, rfl⟩
    · refine ⟨rfl, ?_, ?_⟩
      · intro _; exact ⟨rfl, rfl⟩
      · intro hrs; exact absurd hrs (by decide)

/-- C5 (witness). -/
theorem c5_witness :
    (healthCheckStep (Probe.ok 7) true 50 (runningRec 3)).1.errorCount = 3 ∧
    (healthCheckStep Probe.failure true 50 (runningRec 3)).2 = true := by
  have h := c5_amended (runningRec 3) 50 7 true rfl
  exact ⟨h.1.1, (h.2.2 (by decide)).1⟩

/-! ## Claim C7: task status state machine -/

/-- C7 (confirmed): every reachable task record has status `processing`,
`completed` or `failed`; `result` and `error` are never both present; a
`completed` task always carries a result and no error, a `failed` task an
error message and no result, and a `processing` task neither; and the only
transition is the single terminal step from `processing` to a non-`processing`
status (terminal records admit no step, so each transition occurs at most
once).  The atomicity required by the spec holds because the source performs
the status/result (resp. status/error) writes back-to-back without an
intervening `await` on the single-threaded event loop; the step is modelled
accordingly as one mutation (`finishTask`). -/
theorem c7_task_state_machine :
    (∀ t : Task, ReachableTask t →
      (t.status = TaskStatus.processing ∨ t.status = TaskStatus.completed ∨
        t.status = TaskStatus.failed) ∧
      ¬ (t.result.isSome = true ∧ t.error.isSome = true) ∧
      (t.status = TaskStatus.processing → t.result = none ∧ t.error = none) ∧
      (t.status = TaskStatus.completed →
        t.result.isSome = true ∧ t.error = none) ∧
      (t.status = TaskStatus.failed →
        t.error.isSome = true ∧ t.result = none)) ∧
    (∀ t u : Task, TaskStep t u →
      t.status = TaskStatus.processing ∧ u.status ≠ TaskStatus.processing) := by
  constructor
  · intro t h
    induction h with
    | created tid m => simp [newTask]
    | stepped t u ht hstep ih =>
      cases hstep with
      | finish out hproc =>
        have hre := ih.2.2.1 hproc
        cases out with
        | ok r => simp [finishTask, hre.1, hre.2]
        | error e => simp [finishTask, hre.1, hre.2]
  · intro t u hstep
    cases hstep with
    | finish out hproc =>
      refine ⟨hproc, ?_⟩
      cases out with
      | ok r => simp [finishTask]
      | error e => simp [finishTask]

/-- C7 (witness). -/
theorem c7_witness :
    ¬ (((finishTask (Except.ok ("v")) (newTask ("t1") ("m"))).result.isSome =
          true) ∧
       ((finishTask (Except.ok ("v")) (newTask ("t1") ("m"))).error.isSome =
          true)) :=
  (c7_task_state_machine.1 _
    (ReachableTask.stepped _ _ (ReachableTask.created ("t1") ("m"))
      (TaskStep.finish _ (Except.ok ("v")) rfl))).2.1

/-! ## Claim C10: the task record exists before the acceptance response -/

/-- C10 (confirmed): in both agents' `/rpc` handlers, whenever the produced
response is the acceptance envelope, the task record keyed by the returned
`task_id` is already present in the resulting task store (with status
`processing`), so a status query issued after receiving the acceptance never
finds the id missing.  In the source the `tasks.set` call precedes `res.json`
synchronously (agent-a-server.js lines 110-134, agent-e-server.js lines
133-157). -/
theorem c10_task_stored_before_response :
    (∀ (req : RpcRequest) (store : TaskStore) (fresh : String) (hs : Nat)
        (tid ack msg eid : String),
        (rpcHandlerA req store fresh).1 =
          RpcResponse.accepted hs tid ack msg eid →
        listMapGet (rpcHandlerA req store fresh).2 tid =
          some (newTask tid req.method)) ∧
    (∀ (req : RpcRequest) (store : TaskStore) (fresh : String) (hs : Nat)
        (tid ack msg eid : String),
        (rpcHandlerE req store fresh).1 =
          RpcResponse.accepted hs tid ack msg eid →
        listMapGet (rpcHandlerE req store fresh).2 tid =
          some (newTask tid req.method)) := by
  constructor
  · intro req store fresh hs tid ack msg eid h
    unfold rpcHandlerA at h ⊢
    by_cases h1 : req.jsonrpc ≠ "2.0"
    · rw [if_pos h1] at h; exact absurd h (by simp)
    · rw [if_neg h1] at h ⊢
      by_cases h2 : ¬ (supportedMethodsA.contains req.method)
      · rw [if_pos h2] at h; exact absurd h (by simp)
      · rw [if_neg h2] at h ⊢
        have htid : fresh = tid := by
          have := RpcResponse.accepted.inj h
          exact this.2.1
        subst htid
        exact listMapGet_set store fresh _
  · intro req store fresh hs tid ack msg eid h
    unfold rpcHandlerE at h ⊢
    by_cases h1 : req.jsonrpc ≠ "2.0"
    · rw [if_pos h1] at h; exact absurd h (by simp)
    · rw [if_neg h1] at h ⊢
      by_cases h2 : req.method = ""
      · rw [if_pos h2] at h; exact absurd h (by simp)
      · rw [if_neg h2] at h ⊢
        have htid : fresh = tid := by
          have := RpcResponse.accepted.inj h
          exact this.2.1
        subst htid
        exact listMapGet_set store fresh _

/-- C10 (witness). -/
theorem c10_witness :
    listMapGet (rpcHandlerA reqTextAnalysis [] ("t9")).2 ("t9") =
      some (newTask ("t9") reqTextAnalysis.method) :=
  c10_task_stored_before_response.1 reqTextAnalysis [] ("t9")
    200 ("t9") ("accepted")
    ("Task " ++ reqTextAnalysis.method ++ " accepted for processing")
    reqTextAnalysis.id rfl

/-! ## Claim C4: delegation/fallback counters -/

/-- C4 (confirmed): for a single routed request (one routing of a required
capability type), when zero agents of the required type are available the
`fallbacks` counter is incremented exactly once and `delegations` is
untouched, and when an agent is available and the delegation succeeds the
`delegations` counter is incremented exactly once and `fallbacks` is
untouched — in `intelligentTextAnalysis` for both the sentiment and the
language routing, and in the `smartTextProcessing` operation loop. -/
theorem c4_counters_exactly_once (reg : Registry)
    (sd ld : Except String (Option RVal))
    (deleg : String → Except String (Option RVal))
    (text : String) (c : Counters) (htext : text ≠ "") :
    (findAgentByType reg sentimentAgentType = none →
      ∀ res c2,
        intelligentTextAnalysis reg sd ld text true false c =
          Except.ok (res, c2) →
        c2.fallbackCount = c.fallbackCount + 1 ∧
        c2.delegationCount = c.delegationCount) ∧
    (∀ ag v, findAgentByType reg sentimentAgentType = some ag →
      sd = Except.ok v →
      ∀ res c2,
        intelligentTextAnalysis reg sd ld text true false c =
          Except.ok (res, c2) →
        c2.delegationCount = c.delegationCount + 1 ∧
        c2.fallbackCount = c.fallbackCount) ∧
    (findAgentByType reg languageAgentType = none →
      ∀ res c2,
        intelligentTextAnalysis reg sd ld text false true c =
          Except.ok (res, c2) →
        c2.fallbackCount = c.fallbackCount + 1 ∧
        c2.delegationCount = c.delegationCount) ∧
    (∀ ag v, findAgentByType reg languageAgentType = some ag →
      ld = Except.ok v →
      ∀ res c2,
        intelligentTextAnalysis reg sd ld text false true c =
          Except.ok (res, c2) →
        c2.delegationCount = c.delegationCount + 1 ∧
        c2.fallbackCount = c.fallbackCount) ∧
    (findAgentByType reg sentimentAgentType = none →
      (smartTextProcessingCounters reg deleg ["sentiment"] c).2 =
        { delegationCount := c.delegationCount,
          fallbackCount := c.fallbackCount + 1 }) ∧
    (∀ ag v, findAgentByType reg sentimentAgentType = some ag →
      deleg ("sentiment_analysis") = Except.ok v →
      (smartTextProcessingCounters reg deleg ["sentiment"] c).2 =
        { delegationCount := c.delegationCount + 1,
          fallbackCount := c.fallbackCount }) := by
  refine ⟨?_, ?_, ?_, ?_, ?_, ?_⟩
  · intro hno res c2 heq
    unfold intelligentTextAnalysis at heq
    rw [if_neg htext] at heq
    simp only [hno] at heq
    have h2 := (Prod.mk.injEq _ _ _ _).mp (Except.ok.inj heq)
    rw [← h2.2]
    exact ⟨rfl, rfl⟩
  · intro ag v hag hv res c2 heq
    unfold intelligentTextAnalysis at heq
    rw [if_neg htext] at heq
    simp only [hag, hv] at heq
    have h2 := (Prod.mk.injEq _ _ _ _).mp (Except.ok.inj heq)
    rw [← h2.2]
    exact ⟨rfl, rfl⟩
  · intro hno res c2 heq
    unfold intelligentTextAnalysis at heq
    rw [if_neg htext] at heq
    simp only [hno] at heq
    have h2 := (Prod.mk.injEq _ _ _ _).mp (Except.ok.inj heq)
    rw [← h2.2]
    exact ⟨rfl, rfl⟩
  · intro ag v hag hv res c2 heq
    unfold intelligentTextAnalysis at heq
    rw [if_neg htext] at heq
    simp only [hag, hv] at heq
    have h2 := (Prod.mk.injEq _ _ _ _).mp (Except.ok.inj heq)
    rw [← h2.2]
    exact ⟨rfl, rfl⟩
  · intro hno
    unfold smartTextProcessingCounters smartOpStep
    simp only [List.foldl, hno]
    rfl
  · intro ag v hag hv
    unfold smartTextProcessingCounters smartOpStep
    simp only [List.foldl, hag, hv]
    rfl

/-- C4 (witness). -/
theorem c4_witness :
    ∃ res c2,
      intelligentTextAnalysis [] (Except.error ("net")) (Except.error ("net"))
        ("x") true false { delegationCount := 0, fallbackCount := 0 } =
        Except.ok (res, c2) ∧
      c2.fallbackCount = 1 ∧ c2.delegationCount = 0 := by
  have h := (c4_counters_exactly_once [] (Except.error ("net"))
    (Except.error ("net")) (fun _ => Except.error ("net")) ("x")
    { delegationCount := 0, fallbackCount := 0 } (by decide)).1 rfl
  refine ⟨_, _, rfl, ?_, ?_⟩
  · exact (h _ _ rfl).1
  · exact (h _ _ rfl).2

/-! ## Claim C6: sentiment fallback result shape -/

/-- The sentiment label produced by `sentimentFallback` is always one of the
three labels. -/
theorem sentimentFallback_label (text : String) :
    (sentimentFallback text).sentiment = "positive" ∨
    (sentimentFallback text).sentiment = "negative" ∨
    (sentimentFallback text).sentiment = "neutral" := by
  unfold sentimentFallback
  by_cases h1 : ((jsWords (lowerStr text)).filter
      (fun w => positiveWords.contains w)).length >
      ((jsWords (lowerStr text)).filter
        (fun w => negativeWords.contains w)).length
  · left
    simp only [h1, if_true]
  · by_cases h2 : ((jsWords (lowerStr text)).filter
        (fun w => negativeWords.contains w)).length >
        ((jsWords (lowerStr text)).filter
          (fun w => positiveWords.contains w)).length
    · right; left
      simp only [h1, h2, if_false, if_true]
    · right; right
      simp only [h1, h2, if_false]

/-- C6 (counterexample): with no sentiment-analyzer registered, the sentiment
request is indeed served by the local fallback and the result carries a
sentiment label, but `fallback_used` is set to the string `'sentiment'`,
which is not the boolean value `true` claimed by the spec. -/
theorem c6_counterexample :
    (intelligentTextAnalysis [] (Except.error ("net")) (Except.error ("net"))
        ("x") true false { delegationCount := 0, fallbackCount := 0 }).map
        (fun rc => rc.1.fallback_used) =
      Except.ok (some (FallbackTag.jstr ("sentiment"))) ∧
    some (FallbackTag.jstr ("sentiment")) ≠
      some (FallbackTag.jbool true) ∧
    (intelligentTextAnalysis [] (Except.error ("net")) (Except.error ("net"))
        ("x") true false { delegationCount := 0, fallbackCount := 0 }).map
        (fun rc => rc.1.sentiment_analysis) =
      Except.ok (some (SentimentOutcome.localFallback
        (sentimentFallback ("x")))) ∧
    (sentimentFallback ("x")).sentiment = "neutral" :=
  ⟨rfl, by decide, rfl, by decide⟩

/-- C6 (amended): when no agent of type `sentiment-analyzer` is registered, a
sentiment-analysis request still succeeds via the local fallback handler; the
returned result contains a sentiment label (`positive`/`negative`/`neutral`)
and the field `fallback_used` set to the string `'sentiment'` (the name of
the fallback used; when a later fallback also fires in the same request the
field becomes the array of names), not the boolean `true`. -/
theorem c6_amended (reg : Registry) (sd ld : Except String (Option RVal))
    (text : String) (c : Counters) (htext : text ≠ "")
    (hno : findAgentByType reg sentimentAgentType = none) :
    ∃ res c2,
      intelligentTextAnalysis reg sd ld text true false c =
        Except.ok (res, c2) ∧
      res.sentiment_analysis =
        some (SentimentOutcome.localFallback (sentimentFallback text)) ∧
      res.fallback_used = some (FallbackTag.jstr ("sentiment")) ∧
      ((sentimentFallback text).sentiment = "positive" ∨
       (sentimentFallback text).sentiment = "negative" ∨
       (sentimentFallback text).sentiment = "neutral") ∧
      c2.fallbackCount = c.fallbackCount + 1 := by
  unfold intelligentTextAnalysis
  rw [if_neg htext]
  simp only [hno]
  exact ⟨_, _, rfl, rfl, rfl, sentimentFallback_label text, rfl⟩

/-- C6 (witness). -/
theorem c6_witness :
    ∃ res c2,
      intelligentTextAnalysis [] (Except.error ("e")) (Except.error ("e"))
        ("great stuff") true false
        { delegationCount := 0, fallbackCount := 0 } =
        Except.ok (res, c2) ∧
      res.fallback_used = some (FallbackTag.jstr ("sentiment")) := by
  obtain ⟨res, c2, heq, _, hfb, _, _⟩ := c6_amended [] (Except.error ("e"))
    (Except.error ("e")) ("great stuff")
    { delegationCount := 0, fallbackCount := 0 } (by decide) rfl
  exact ⟨res, c2, heq, hfb⟩

/-! ## Polling-loop lemmas for claims C2 and C9 -/

/-- If every poll observation is non-terminal (still `processing`, or a
network error), the polling loop returns the timeout error — it never hangs
and never retries past the wall-clock ceiling. -/
theorem waitLoop_nonterminal (obs : Nat → PollObs) (durs : Nat → Nat)
    (tid : String)
    (hobs : ∀ j st r e, obs j = PollObs.observed st r e →
      st = TaskStatus.processing) :
    ∀ n i elapsed, maxWaitTimeMs - elapsed ≤ n →
      waitLoop obs durs tid i elapsed =
        Except.error ("Task " ++ tid ++ " timeout") := by
  intro n
  induction n with
  | zero =>
    intro i elapsed he
    have hlt : ¬ elapsed < maxWaitTimeMs := by omega
    rw [waitLoop, dif_neg hlt]
  | succ n ih =>
    intro i elapsed he
    by_cases hlt : elapsed < maxWaitTimeMs
    · cases hoi : obs i with
      | netError => rw [waitLoop, dif_pos hlt, hoi]
      | observed st r e =>
        have hst := hobs i st r e hoi
        subst hst
        have hred : waitLoop obs durs tid i elapsed =
            waitLoop obs durs tid (i + 1)
              (elapsed + durs i + pollIntervalMs) := by
          rw [waitLoop, dif_pos hlt, hoi]
          rfl
        rw [hred]
        apply ih
        have hp : pollIntervalMs = 500 := rfl
        omega
    · rw [waitLoop, dif_neg hlt]

/-- Total wall-clock time consumed by `k` non-terminal polling iterations
starting at index `i` (each poll duration plus one sleep interval). -/
def stepSum (durs : Nat → Nat) (i : Nat) : Nat → Nat
  | 0 => 0
  | k + 1 => durs i + pollIntervalMs + stepSum durs (i + 1) k

/-- If the first `k` polls see the task `processing` and the k-th poll sees
it `completed` with payload `r`, and the accumulated wall-clock time stays
below the ceiling, the polling loop returns exactly `r` — the remote task's
final result. -/
theorem waitLoop_completed_at (obs : Nat → PollObs) (durs : Nat → Nat)
    (tid : String) :
    ∀ (k i elapsed : Nat) (r : Option RVal) (er : Option String),
      (∀ j, j < k → ∃ r0 e0, obs (i + j) =
        PollObs.observed TaskStatus.processing r0 e0) →
      obs (i + k) = PollObs.observed TaskStatus.completed r er →
      elapsed + stepSum durs i k < maxWaitTimeMs →
      waitLoop obs durs tid i elapsed = Except.ok r := by
  intro k
  induction k with
  | zero =>
    intro i elapsed r er hbefore hk hbound
    have hz : stepSum durs i 0 = 0 := rfl
    have hlt : elapsed < maxWaitTimeMs := by omega
    rw [Nat.add_zero] at hk
    rw [waitLoop, dif_pos hlt, hk]
    rfl
  | succ k ih =>
    intro i elapsed r er hbefore hk hbound
    obtain ⟨r0, e0, h0⟩ := hbefore 0 (Nat.succ_pos k)
    rw [Nat.add_zero] at h0
    have hs : stepSum durs i (k + 1) =
        durs i + pollIntervalMs + stepSum durs (i + 1) k := rfl
    have hlt : elapsed < maxWaitTimeMs := by omega
    have hred : waitLoop obs durs tid i elapsed =
        waitLoop obs durs tid (i + 1)
          (elapsed + durs i + pollIntervalMs) := by
      rw [waitLoop, dif_pos hlt, h0]
      rfl
    rw [hred]
    apply ih
    · intro j hj
      have h := hbefore (j + 1) (by omega)
      rwa [show i + (j + 1) = i + 1 + j by omega] at h
    · rwa [show i + 1 + k = i + (k + 1) by omega]
    · omega

/-- A first poll observing the task `failed` makes the loop throw the remote
failure. -/
theorem waitLoop_failed_first (obs : Nat → PollObs) (durs : Nat → Nat)
    (tid : String) (r : Option RVal) (er : Option String)
    (h0 : obs 0 = PollObs.observed TaskStatus.failed r er) :
    waitForTaskCompletion obs durs tid =
      Except.error ("Task failed: " ++ er.getD ("undefined")) := by
  unfold waitForTaskCompletion
  rw [waitLoop, dif_pos (by decide), h0]
  rfl

/-! ## Claim C2: what a delegator returns to the caller -/

/-- A remote acceptance envelope, as Agent A would produce it. -/
def sampleAcceptance : RpcResultVal :=
  RpcResultVal.acceptance ("tid-1") ("accepted")
    ("Task text_analysis accepted for processing")

/-- C2 (counterexample): the claim fails on the advanced orchestrator's
delegation path.  `routeAndExecuteTask` for `text_analysis` performs a
single POST and hands back the response's `result` member verbatim: when the
remote answer is the task-acceptance envelope, that envelope itself — not
any remote task's final result — is what the caller receives, with no task
id extracted and no task-status polling (the function does not consult any
poll stream at all); moreover the POST goes to `/json-rpc`, a path no agent
serves. -/
theorem c2_counterexample :
    (routeAndExecuteTask ("text_analysis") sampleAcceptance).map
        (fun r => r.result) = Except.ok sampleAcceptance ∧
    (routeAndExecuteTask ("text_analysis") sampleAcceptance).map
        (fun r => r.agent) = Except.ok ("Text Processor") ∧
    orchestratorPostPath ≠ agentRpcPath :=
  ⟨rfl, rfl, by decide⟩

/-- C2 (amended): Agent E's delegator behaves as claimed — it issues the
task-acceptance call, and when the response carries a task id it polls the
remote task-status endpoint every 500 ms until the task is `completed` (in
which case the caller receives the remote task's final `result`) or `failed`
(a thrown failure), or until the 10 s delegation ceiling elapses.  The
advanced orchestrator's `routeAndExecuteTask`, by contrast, performs one
POST (to `/json-rpc`) and returns the response's `result` member — the
acceptance envelope — verbatim, without polling. -/
theorem c2_amended :
    (∀ (obs : Nat → PollObs) (durs : Nat → Nat) (tid ack msg : String)
        (r : Option RVal) (er : Option String) (k : Nat),
        (∀ j, j < k → ∃ r0 e0, obs j =
          PollObs.observed TaskStatus.processing r0 e0) →
        obs k = PollObs.observed TaskStatus.completed r er →
        stepSum durs 0 k < maxWaitTimeMs →
        delegateToAgent (RpcReply.withResult
          (RpcResultVal.acceptance tid ack msg)) obs durs = Except.ok r) ∧
    (∀ (obs : Nat → PollObs) (durs : Nat → Nat) (tid ack msg : String)
        (r : Option RVal) (er : Option String),
        obs 0 = PollObs.observed TaskStatus.failed r er →
        delegateToAgent (RpcReply.withResult
          (RpcResultVal.acceptance tid ack msg)) obs durs =
          Except.error ("Task failed: " ++ er.getD ("undefined"))) ∧
    pollIntervalMs = 500 ∧ maxWaitTimeMs = 10000 ∧
    (∀ (method : String) (remoteResult : RpcResultVal)
        (res : OrchExecResult),
        routeAndExecuteTask method remoteResult = Except.ok res →
        res.result = remoteResult) := by
  refine ⟨?_, ?_, rfl, rfl, ?_⟩
  · intro obs durs tid ack msg r er k hbefore hk hbound
    unfold delegateToAgent waitForTaskCompletion
    apply waitLoop_completed_at obs durs tid k 0 0 r er
    · intro j hj
      have h := hbefore j hj
      rwa [Nat.zero_add]
    · rwa [Nat.zero_add]
    · rwa [Nat.zero_add]
  · intro obs durs tid ack msg r er h0
    unfold delegateToAgent
    exact waitLoop_failed_first obs durs tid r er h0
  · intro method remoteResult res h
    unfold routeAndExecuteTask at h
    cases hr : routeMethodToAgentType method with
    | none => rw [hr] at h; exact absurd h (by simp)
    | some ty =>
      simp only [hr] at h
      cases hf : agentConfigs.find? (fun c => c.type == ty) with
      | none => simp only [hf, reduceCtorEq] at h
      | some cfg =>
        simp only [hf, Except.ok.injEq] at h
        rw [← h]

/-- C2 (witness). -/
theorem c2_witness :
    delegateToAgent (RpcReply.withResult
      (RpcResultVal.acceptance ("t1") ("accepted") ("m")))
      (fun _ => PollObs.observed TaskStatus.completed (some ("final")) none)
      (fun _ => 0) = Except.ok (some ("final")) :=
  c2_amended.1
    (fun _ => PollObs.observed TaskStatus.completed (some ("final")) none)
    (fun _ => 0) ("t1") ("accepted") ("m") (some ("final")) none 0
    (fun j hj => absurd hj (by omega)) rfl (by decide)

/-! ## Claim C9: timeouts, ceiling and fallback on delegation failure -/

/-- A registry containing a sentiment-analyzer agent. -/
def agentCRec : DAgent :=
  { id := "sentiment-analyzer-agent-c", name := "Agent C - Sentiment Analyzer",
    type := "sentiment-analyzer", port := 4003,
    capabilities := ["sentiment-analysis"], last_seen := 0 }

/-- C9 (confirmed): every delegation by Agent E carries both a per-attempt
network timeout (5 s on the RPC POST, 2 s on each status poll) and the
overall 10 s wall-clock polling ceiling; a delegation whose polls never reach
a terminal state returns the definitive timeout error (the polling loop
terminates, with no further retry), and a failed delegation makes
`intelligentTextAnalysis` serve the local sentiment fallback and count one
fallback, instead of waiting indefinitely. -/
theorem c9_timeout_ceiling_and_fallback :
    pollAttemptTimeoutMs = 2000 ∧ delegatePostTimeoutMs = 5000 ∧
    maxWaitTimeMs = 10000 ∧ pollIntervalMs = 500 ∧
    (∀ (obs : Nat → PollObs) (durs : Nat → Nat) (tid : String),
        (∀ j st r e, obs j = PollObs.observed st r e →
          st = TaskStatus.processing) →
        waitForTaskCompletion obs durs tid =
          Except.error ("Task " ++ tid ++ " timeout")) ∧
    (∀ (reg : Registry) (ld : Except String (Option RVal))
        (text msg : String) (c : Counters) (ag : DAgent),
        findAgentByType reg sentimentAgentType = some ag → text ≠ "" →
        ∃ res c2,
          intelligentTextAnalysis reg (Except.error msg) ld text true false
            c = Except.ok (res, c2) ∧
          res.sentiment_analysis = some (SentimentOutcome.localFallback
            (sentimentFallback text)) ∧
          c2.fallbackCount = c.fallbackCount + 1 ∧
          c2.delegationCount = c.delegationCount) := by
  refine ⟨rfl, rfl, rfl, rfl, ?_, ?_⟩
  · intro obs durs tid hobs
    unfold waitForTaskCompletion
    apply waitLoop_nonterminal obs durs tid hobs maxWaitTimeMs
    omega
  · intro reg ld text msg c ag hag htext
    unfold intelligentTextAnalysis
    rw [if_neg htext]
    simp only [hag]
    exact ⟨_, _, rfl, rfl, rfl, rfl⟩

/-- C9 (witness). -/
theorem c9_witness :
    waitForTaskCompletion (fun _ => PollObs.netError) (fun _ => 0) ("t7") =
      Except.error ("Task " ++ "t7" ++ " timeout") ∧
    ∃ res c2,
      intelligentTextAnalysis [("sentiment-analyzer-agent-c", agentCRec)]
        (Except.error ("net timeout")) (Except.error ("net timeout")) ("x")
        true false { delegationCount := 0, fallbackCount := 0 } =
        Except.ok (res, c2) ∧
      res.sentiment_analysis = some (SentimentOutcome.localFallback
        (sentimentFallback ("x"))) ∧
      c2.fallbackCount = 1 := by
  constructor
  · exact c9_timeout_ceiling_and_fallback.2.2.2.2.1
      (fun _ => PollObs.netError) (fun _ => 0) ("t7")
      (fun j st r e h => absurd h (by simp))
  · obtain ⟨res, c2, heq, hsa, hfb, _⟩ :=
      c9_timeout_ceiling_and_fallback.2.2.2.2.2
        [("sentiment-analyzer-agent-c", agentCRec)]
        (Except.error ("net timeout")) ("x") ("net timeout")
        { delegationCount := 0, fallbackCount := 0 } agentCRec rfl (by decide)
    exact ⟨res, c2, heq, hsa, hfb⟩

/-! ## Registry lemmas for claim C8 -/

/-- Every element of a JS-Map `set` result is the written pair or an
untouched original entry with a different key. -/
theorem mem_listMapSet {α : Type} (s : List (String × α)) (k : String)
    (v : α) (e : String × α) (he : e ∈ listMapSet s k v) :
    e = (k, v) ∨ (e ∈ s ∧ (e.1 == k) = false) := by
  unfold listMapSet at he
  by_cases h : s.any (fun p => p.1 == k) = true
  · rw [if_pos h] at he
    obtain ⟨a, ha, hfa⟩ := List.mem_map.mp he
    by_cases hak : (a.1 == k) = true
    · left; rw [← hfa, if_pos hak]
    · right
      rw [← hfa, if_neg hak]
      exact ⟨ha, Bool.eq_false_iff.mpr hak⟩
  · rw [if_neg h] at he
    rcases List.mem_append.mp he with he1 | he2
    · right
      refine ⟨he1, ?_⟩
      cases hb : (e.1 == k) with
      | false => rfl
      | true => exact absurd (List.any_eq_true.mpr ⟨e, he1, hb⟩) h
    · left
      simpa using he2

/-- The written pair is a member of a JS-Map `set` result. -/
theorem mem_self_listMapSet {α : Type} (s : List (String × α)) (k : String)
    (v : α) : (k, v) ∈ listMapSet s k v := by
  unfold listMapSet
  by_cases h : s.any (fun p => p.1 == k) = true
  · rw [if_pos h]
    obtain ⟨a, ha, hpa⟩ := List.any_eq_true.mp h
    refine List.mem_map.mpr ⟨a, ha, ?_⟩
    rw [if_pos hpa]
  · rw [if_neg h]
    exact List.mem_append.mpr (Or.inr (by simp))

/-- Entries whose key differs from the written key survive a JS-Map `set`
unchanged. -/
theorem mem_listMapSet_of_mem_ne {α : Type} (s : List (String × α))
    (k' : String) (v' : α) (e : String × α) (he : e ∈ s)
    (hne : (e.1 == k') = false) : e ∈ listMapSet s k' v' := by
  unfold listMapSet
  by_cases h : s.any (fun p => p.1 == k') = true
  · rw [if_pos h]
    refine List.mem_map.mpr ⟨e, he, ?_⟩
    rw [if_neg (by simp [hne])]
  · rw [if_neg h]
    exact List.mem_append.mpr (Or.inl he)

/-- The key `k` is bound, with every binding equal to `v`. -/
def allKV (k : String) (v : DAgent) (r : Registry) : Prop :=
  (∀ e ∈ r, (e.1 == k) = true → e = (k, v)) ∧ (k, v) ∈ r

/-- Rewriting a binding that is already everywhere `v` changes nothing. -/
theorem listMapSet_eq_self (r : Registry) (k : String) (v : DAgent)
    (h : allKV k v r) : listMapSet r k v = r := by
  unfold listMapSet
  have hany : r.any (fun p => p.1 == k) = true :=
    List.any_eq_true.mpr ⟨(k, v), h.2, by simp⟩
  rw [if_pos hany]
  have : ∀ e ∈ r, (if e.1 == k then (k, v) else e) = e := by
    intro e he
    by_cases hek : (e.1 == k) = true
    · rw [if_pos hek, h.1 e he hek]
    · rw [if_neg hek]
  calc r.map (fun e => if e.1 == k then (k, v) else e)
      = r.map id := List.map_congr_left this
    _ = r := List.map_id r

theorem allKV_listMapSet_self (r : Registry) (k : String) (v : DAgent) :
    allKV k v (listMapSet r k v) := by
  constructor
  · intro e he hek
    rcases mem_listMapSet r k v e he with h | ⟨_, hfalse⟩
    · exact h
    · rw [hek] at hfalse; cases hfalse
  · exact mem_self_listMapSet r k v

theorem allKV_listMapSet_ne (r : Registry) (k k' : String) (v v' : DAgent)
    (hne : ¬ (k = k')) (h : allKV k v r) :
    allKV k v (listMapSet r k' v') := by
  constructor
  · intro e he hek
    rcases mem_listMapSet r k' v' e he with he1 | ⟨he2, _⟩
    · exfalso
      apply hne
      have h1 : e.1 = k := by simpa using hek
      rw [he1] at h1
      exact h1.symm
    · exact h.1 e he2 hek
  · exact mem_listMapSet_of_mem_ne r k' v' (k, v) h.2 (by simpa using hne)

theorem allKV_filter (r : Registry) (k : String) (v : DAgent) (q : Nat)
    (h : allKV k v r) (hv : ¬ (v.port = q)) :
    allKV k v (r.filter (keepsPort q)) := by
  constructor
  · intro e he hek
    exact h.1 e (List.mem_filter.mp he).1 hek
  · apply List.mem_filter.mpr
    refine ⟨h.2, ?_⟩
    unfold keepsPort
    simpa using hv

/-- No binding carries the given port. -/
def noPortP (p : Nat) (r : Registry) : Prop := ∀ e ∈ r, ¬ (e.2.port = p)

theorem noPort_filter_self (p : Nat) (r : Registry) (h : noPortP p r) :
    r.filter (keepsPort p) = r := by
  apply List.filter_eq_self.mpr
  intro e he
  unfold keepsPort
  simpa using h e he

theorem noPort_establish (p : Nat) (r : Registry) :
    noPortP p (r.filter (keepsPort p)) := by
  intro e he
  have h := (List.mem_filter.mp he).2
  unfold keepsPort at h
  simpa using h

theorem noPort_preserve_filter (p q : Nat) (r : Registry)
    (h : noPortP p r) : noPortP p (r.filter (keepsPort q)) :=
  fun e he => h e (List.mem_filter.mp he).1

theorem noPort_preserve_mapSet (p : Nat) (r : Registry) (k : String)
    (v : DAgent) (h : noPortP p r) (hv : ¬ (v.port = p)) :
    noPortP p (listMapSet r k v) := by
  intro e he
  rcases mem_listMapSet r k v e he with he1 | ⟨he2, _⟩
  · rw [he1]; exact hv
  · exact h e he2

/-! ### Characterisations of a single discovery step -/

theorem discoverStep_id_of_self (live : Nat → ProbeOutcome) (now p : Nat)
    (h : p = agentEPort) (r : Registry) : discoverStep live now r p = r := by
  unfold discoverStep
  rw [if_pos h]

theorem discoverStep_id_of_degraded (live : Nat → ProbeOutcome) (now p : Nat)
    (h1 : ¬ p = agentEPort) (h2 : live p = ProbeOutcome.degraded)
    (r : Registry) : discoverStep live now r p = r := by
  unfold discoverStep
  rw [if_neg h1, h2]

theorem discoverStep_eq_mapSet (live : Nat → ProbeOutcome) (now p : Nat)
    (card : AgentCard) (h1 : ¬ p = agentEPort)
    (h2 : live p = ProbeOutcome.reachable card) (r : Registry) :
    discoverStep live now r p =
      listMapSet r card.id (descriptorOf card p now) := by
  unfold discoverStep
  rw [if_neg h1, h2]

theorem discoverStep_eq_filter (live : Nat → ProbeOutcome) (now p : Nat)
    (h1 : ¬ p = agentEPort) (h2 : live p = ProbeOutcome.down)
    (r : Registry) : discoverStep live now r p = r.filter (keepsPort p) := by
  unfold discoverStep
  rw [if_neg h1, h2]

theorem discoverStep_preserves_noPort (live : Nat → ProbeOutcome)
    (now p q : Nat) (hq : ¬ (q = p)) (r : Registry) (h : noPortP p r) :
    noPortP p (discoverStep live now r q) := by
  by_cases hself : q = agentEPort
  · rw [discoverStep_id_of_self live now q hself]; exact h
  · cases hl : live q with
    | reachable card =>
      rw [discoverStep_eq_mapSet live now q card hself hl]
      exact noPort_preserve_mapSet p r card.id _ h
        (by simp only [descriptorOf]; exact hq)
    | degraded =>
      rw [discoverStep_id_of_degraded live now q hself hl]; exact h
    | down =>
      rw [discoverStep_eq_filter live now q hself hl]
      exact noPort_preserve_filter p q r h

theorem discoverStep_preserves_allKV (live : Nat → ProbeOutcome)
    (now p q : Nat) (k : String) (v : DAgent) (hq : ¬ (q = p))
    (hvp : v.port = p)
    (hid : ∀ cq, live q = ProbeOutcome.reachable cq → ¬ (k = cq.id))
    (r : Registry) (h : allKV k v r) :
    allKV k v (discoverStep live now r q) := by
  by_cases hself : q = agentEPort
  · rw [discoverStep_id_of_self live now q hself]; exact h
  · cases hl : live q with
    | reachable cq =>
      rw [discoverStep_eq_mapSet live now q cq hself hl]
      exact allKV_listMapSet_ne r k cq.id v _ (hid cq hl) h
    | degraded =>
      rw [discoverStep_id_of_degraded live now q hself hl]; exact h
    | down =>
      rw [discoverStep_eq_filter live now q hself hl]
      exact allKV_filter r k v q h
        (by rw [hvp]; exact fun hc => hq hc.symm)

/-- Invariant preservation over a whole fold of discovery steps. -/
theorem foldl_preserves (Inv : Registry → Prop)
    (f : Registry → Nat → Registry) :
    ∀ (P : List Nat) (r : Registry), Inv r →
      (∀ q ∈ P, ∀ x, Inv x → Inv (f x q)) → Inv (P.foldl f r) := by
  intro P
  induction P with
  | nil => intro r hr _; exact hr
  | cons q T ih =>
    intro r hr hstep
    exact ih (f r q) (hstep q (by simp) r hr)
      (fun b hb x hx => hstep b (by simp [hb]) x hx)

/-- A step already performed is absorbed after the remaining steps of the
same pass (over ports distinct from it and with distinct live agent ids). -/
theorem discoverStep_absorb (live : Nat → ProbeOutcome) (now : Nat)
    (P : List Nat) (p : Nat) (hp : p ∉ P)
    (hids : ∀ q ∈ P, ∀ cp cq, live p = ProbeOutcome.reachable cp →
      live q = ProbeOutcome.reachable cq → ¬ (cp.id = cq.id))
    (r : Registry) :
    discoverStep live now
      (P.foldl (discoverStep live now) (discoverStep live now r p)) p =
    P.foldl (discoverStep live now) (discoverStep live now r p) := by
  have hqp : ∀ q ∈ P, ¬ (q = p) := by
    intro q hq hqp
    exact hp (hqp ▸ hq)
  by_cases hself : p = agentEPort
  · rw [discoverStep_id_of_self live now p hself]
  · cases hl : live p with
    | degraded => rw [discoverStep_id_of_degraded live now p hself hl]
    | down =>
      have h0 : noPortP p (discoverStep live now r p) := by
        rw [discoverStep_eq_filter live now p hself hl]
        exact noPort_establish p r
      have hX := foldl_preserves (noPortP p) (discoverStep live now) P
        (discoverStep live now r p) h0
        (fun q hq x hx => discoverStep_preserves_noPort live now p q
          (hqp q hq) x hx)
      rw [discoverStep_eq_filter live now p hself hl]
      exact noPort_filter_self p _ hX
    | reachable cp =>
      have h0 : allKV cp.id (descriptorOf cp p now)
          (discoverStep live now r p) := by
        rw [discoverStep_eq_mapSet live now p cp hself hl]
        exact allKV_listMapSet_self r cp.id _
      have hX := foldl_preserves (allKV cp.id (descriptorOf cp p now))
        (discoverStep live now) P (discoverStep live now r p) h0
        (fun q hq x hx => discoverStep_preserves_allKV live now p q cp.id
          _ (hqp q hq) rfl (fun cq hcq => hids q hq cp cq hl hcq) x hx)
      rw [discoverStep_eq_mapSet live now p cp hself hl]
      exact listMapSet_eq_self _ cp.id _ hX

/-- Pairwise-distinct live agent ids over a port list. -/
def idsInjOn (live : Nat → ProbeOutcome) (P : List Nat) : Prop :=
  ∀ p q cp cq, p ∈ P → q ∈ P → live p = ProbeOutcome.reachable cp →
    live q = ProbeOutcome.reachable cq → cp.id = cq.id → p = q

/-- Idempotence of one full discovery pass (same probe results, same
timestamp) over any duplicate-free port list whose live agents advertise
pairwise-distinct ids. -/
theorem foldl_discover_idem (live : Nat → ProbeOutcome) (now : Nat) :
    ∀ P : List Nat, P.Nodup → idsInjOn live P →
      ∀ r : Registry,
        P.foldl (discoverStep live now)
          (P.foldl (discoverStep live now) r) =
        P.foldl (discoverStep live now) r := by
  intro P
  induction P with
  | nil => intro _ _ r; rfl
  | cons p T ih =>
    intro hnd hinj r
    have hpT : p ∉ T := (List.nodup_cons.mp hnd).1
    have hndT : T.Nodup := (List.nodup_cons.mp hnd).2
    have hinjT : idsInjOn live T := by
      intro a b ca cb ha hb hla hlb hid
      exact hinj a b ca cb (List.mem_cons_of_mem p ha)
        (List.mem_cons_of_mem p hb) hla hlb hid
    have hids : ∀ q ∈ T, ∀ cp cq, live p = ProbeOutcome.reachable cp →
        live q = ProbeOutcome.reachable cq → ¬ (cp.id = cq.id) := by
      intro q hq cp cq hlp hlq hideq
      have heq := hinj p q cp cq (List.mem_cons_self p T)
        (List.mem_cons_of_mem p hq) hlp hlq hideq
      cases heq
      exact hpT hq
    have habs := discoverStep_absorb live now T p hpT hids r
    simp only [List.foldl_cons]
    rw [habs]
    exact ih hndT hinjT (discoverStep live now r p)

/-! ### Timestamp erasure commutes with a pass -/

theorem eraseSeen_mapSet (r : Registry) (k : String) (v : DAgent) :
    eraseSeen (listMapSet r k v) =
      listMapSet (eraseSeen r) k { v with last_seen := 0 } := by
  unfold listMapSet eraseSeen
  have hany : (r.map (fun p => (p.1, { p.2 with last_seen := 0 }))).any
      (fun p => p.1 == k) = r.any (fun p => p.1 == k) := by
    rw [List.any_map]
    rfl
  by_cases h : r.any (fun p => p.1 == k) = true
  · rw [if_pos h, if_pos (by rw [hany]; exact h)]
    rw [List.map_map, List.map_map]
    apply List.map_congr_left
    intro e _
    by_cases he : (e.1 == k) = true
    · simp [Function.comp, he]
    · simp [Function.comp, he]
  · rw [if_neg h, if_neg (by rw [hany]; exact h)]
    rw [List.map_append]
    rfl

theorem eraseSeen_filter (r : Registry) (q : Nat) :
    eraseSeen (r.filter (keepsPort q)) =
      (eraseSeen r).filter (keepsPort q) := by
  induction r with
  | nil => rfl
  | cons e t ih =>
    by_cases h : keepsPort q e = true
    · have h2 : keepsPort q (e.1, { e.2 with last_seen := 0 }) = true := by
        unfold keepsPort at h ⊢
        simpa using h
      rw [List.filter_cons_of_pos h]
      unfold eraseSeen
      rw [List.map_cons, List.map_cons, List.filter_cons_of_pos h2]
      unfold eraseSeen at ih
      rw [ih]
    · have hf : keepsPort q e = false := Bool.eq_false_iff.mpr h
      have h2 : keepsPort q (e.1, { e.2 with last_seen := 0 }) = false := by
        unfold keepsPort at hf ⊢
        simpa using hf
      rw [List.filter_cons_of_neg (by simp [hf])]
      unfold eraseSeen
      rw [List.map_cons, List.filter_cons_of_neg (by simp [h2])]
      unfold eraseSeen at ih
      rw [ih]

theorem eraseSeen_step (live : Nat → ProbeOutcome) (t : Nat) (r : Registry)
    (q : Nat) :
    eraseSeen (discoverStep live t r q) =
      discoverStep live 0 (eraseSeen r) q := by
  by_cases hself : q = agentEPort
  · rw [discoverStep_id_of_self live t q hself,
        discoverStep_id_of_self live 0 q hself]
  · cases hl : live q with
    | reachable card =>
      rw [discoverStep_eq_mapSet live t q card hself hl,
          discoverStep_eq_mapSet live 0 q card hself hl]
      exact eraseSeen_mapSet r card.id (descriptorOf card q t)
    | degraded =>
      rw [discoverStep_id_of_degraded live t q hself hl,
          discoverStep_id_of_degraded live 0 q hself hl]
    | down =>
      rw [discoverStep_eq_filter live t q hself hl,
          discoverStep_eq_filter live 0 q hself hl]
      exact eraseSeen_filter r q

theorem eraseSeen_foldl (live : Nat → ProbeOutcome) (t : Nat) :
    ∀ (P : List Nat) (r : Registry),
      eraseSeen (P.foldl (discoverStep live t) r) =
        P.foldl (discoverStep live 0) (eraseSeen r) := by
  intro P
  induction P with
  | nil => intro r; rfl
  | cons q T ih =>
    intro r
    simp only [List.foldl_cons]
    rw [ih, eraseSeen_step]

/-- Timestamp erasure moves a whole pass to timestamp 0. -/
theorem eraseSeen_pass (live : Nat → ProbeOutcome) (t : Nat) (r : Registry) :
    eraseSeen (performDiscovery live t r) =
      performDiscovery live 0 (eraseSeen r) :=
  eraseSeen_foldl live t discoveryPortRange r

/-! ## Claim C8: discovery idempotence -/

/-- The card of the only live agent in the counterexample probe map. -/
def cardA : AgentCard :=
  { id := "text-processor-agent-a", name := "Agent A - Text Processor",
    type := "text-processor", capabilities := ["text-analysis"] }

/-- A probe map with one live agent on port 4001 and everything else down. -/
def liveOnlyA : Nat → ProbeOutcome :=
  fun p => if p = 4001 then ProbeOutcome.reachable cardA else ProbeOutcome.down

/-- C8 (counterexample): two discovery passes over an unchanged set of live
agents do not produce identical registry snapshots when the passes run at
different times, because every pass overwrites each live agent's `last_seen`
with the current timestamp; the snapshots agree on everything except those
freshness timestamps. -/
theorem c8_counterexample :
    performDiscovery liveOnlyA 1 (performDiscovery liveOnlyA 0 []) ≠
      performDiscovery liveOnlyA 0 [] ∧
    eraseSeen (performDiscovery liveOnlyA 1
        (performDiscovery liveOnlyA 0 [])) =
      eraseSeen (performDiscovery liveOnlyA 0 []) := by
  constructor
  · decide
  · decide

/-- C8 (amended): a discovery pass is idempotent up to freshness timestamps,
for live agents advertising pairwise-distinct ids (as every agent in this
system does): re-running `performDiscovery` with the same probe results and
the same timestamp returns the registry unchanged, and with a later
timestamp the second pass differs from the first only in the `last_seen`
fields (erasing them makes the snapshots equal). -/
theorem c8_amended (live : Nat → ProbeOutcome) (r : Registry) (t1 t2 : Nat)
    (hinj : liveIdsInjective live) :
    performDiscovery live t1 (performDiscovery live t1 r) =
      performDiscovery live t1 r ∧
    eraseSeen (performDiscovery live t2 (performDiscovery live t1 r)) =
      eraseSeen (performDiscovery live t1 r) := by
  constructor
  · exact foldl_discover_idem live t1 discoveryPortRange (by decide) hinj r
  · calc eraseSeen (performDiscovery live t2 (performDiscovery live t1 r))
        = performDiscovery live 0
            (eraseSeen (performDiscovery live t1 r)) :=
          eraseSeen_pass live t2 (performDiscovery live t1 r)
      _ = performDiscovery live 0
            (performDiscovery live 0 (eraseSeen r)) := by
          rw [eraseSeen_pass live t1 r]
      _ = performDiscovery live 0 (eraseSeen r) :=
            foldl_discover_idem live 0 discoveryPortRange (by decide) hinj
              (eraseSeen r)
      _ = eraseSeen (performDiscovery live t1 r) :=
            (eraseSeen_pass live t1 r).symm

/-- C8 (witness). -/
theorem c8_witness :
    performDiscovery liveOnlyA 5 (performDiscovery liveOnlyA 5 []) =
      performDiscovery liveOnlyA 5 [] := by
  have hinj : liveIdsInjective liveOnlyA := by
    intro p q cp cq hp hq hlp hlq hid
    have hp4 : p = 4001 := by
      by_contra hne
      have hdown : liveOnlyA p = ProbeOutcome.down := by
        unfold liveOnlyA
        rw [if_neg hne]
      rw [hdown] at hlp
      exact absurd hlp (by simp)
    have hq4 : q = 4001 := by
      by_contra hne
      have hdown : liveOnlyA q = ProbeOutcome.down := by
        unfold liveOnlyA
        rw [if_neg hne]
      rw [hdown] at hlq
      exact absurd hlq (by simp)
    rw [hp4, hq4]
  exact (c8_amended liveOnlyA [] 5 5 hinj).1

end A2A
